import Mathlib

set_option maxRecDepth 100000

/-!
# Verification of the Work-Eye timestamp formatting layer

Shallow embedding of `src/utils/timeUtils.ts` (`formatLastActivity`) and the
timezone utility module (`formatLocalTime`, `formatLocalDateTime`,
`formatScreenshotTime`, `formatActivityTime`).

Modelling choices:
* A JavaScript `Date` value is an instant: an integer count of milliseconds
  since the Unix epoch (`Int`).  An *invalid* date (`isNaN(getTime())`) is
  `none` in an `Option Int`.
* The ambient runtime is a `JSEnv`: the current instant `nowMs`, the local
  zone modelled as a fixed offset from UTC in minutes (`tzOffsetMin`), and
  the behaviour of the general-purpose `new Date(string)` constructor on
  strings (`parseAny`), which is environment/implementation defined.
* `Date.UTC` and the UTC/local field getters are modelled by explicit
  proleptic-Gregorian calendar arithmetic (`dateUTC`, `msToCivil`),
  including the JavaScript quirk that an integer year argument in `0..99`
  is interpreted as `1900 + year`.
* The two regular expressions of the source are modelled by hand-written
  matchers over `List Char` with the same (deterministic) semantics,
  including unanchored leftmost search for the inner capture regexes.
* `Math.floor` division of millisecond differences is `Int.fdiv`.
-/

/-! ## Proleptic Gregorian calendar arithmetic (model of the JS Date core) -/

/-- Gregorian leap-year test. -/
def isLeap (y : Nat) : Bool :=
  y % 4 == 0 && (y % 100 != 0 || y % 400 == 0)

/-- Length of year `y` in days. -/
def yearLen (y : Nat) : Nat :=
  if isLeap y then 366 else 365

/-- Cumulative day counts of the months of a non-leap year:
`cumNL m` is the number of days in months `1..m`. -/
def cumNL : Nat → Nat
  | 0 => 0
  | 1 => 31
  | 2 => 59
  | 3 => 90
  | 4 => 120
  | 5 => 151
  | 6 => 181
  | 7 => 212
  | 8 => 243
  | 9 => 273
  | 10 => 304
  | 11 => 334
  | _ => 365

/-- Length of month `m` (1-based) of a non-leap year. -/
def monthLenNL : Nat → Nat
  | 1 => 31
  | 2 => 28
  | 3 => 31
  | 4 => 30
  | 5 => 31
  | 6 => 30
  | 7 => 31
  | 8 => 31
  | 9 => 30
  | 10 => 31
  | 11 => 30
  | 12 => 31
  | _ => 0

/-- Length of month `m` (1-based) of year `y`. -/
def monthLen (y m : Nat) : Nat :=
  if m = 2 then (if isLeap y then 29 else 28) else monthLenNL m

/-- Days in months `1..m` of year `y`. -/
def daysUptoN (y m : Nat) : Nat :=
  cumNL m + (if 2 ≤ m ∧ isLeap y then 1 else 0)

/-- Days in the years `0, 1, ..., y-1` (proleptic Gregorian, year 0 is leap),
in closed form: `365y` plus the number of leap years strictly below `y`. -/
def daysBefore (y : Nat) : Nat :=
  365 * y + (y + 3) / 4 - (y + 99) / 100 + (y + 399) / 400

/-- Day count from 0000-01-01 to the Unix epoch 1970-01-01. -/
def epochDays : Nat := daysBefore 1970

/-- Fuel-bounded year lookup: starting at year `y` with `n` days remaining,
subtract whole years until fewer than a year of days remains.  Returns the
year reached and the day-of-year index. -/
def findYearF : Nat → Nat → Nat → Nat × Nat
  | 0, y, n => (y, n)
  | fuel + 1, y, n =>
    if n < yearLen y then (y, n) else findYearF fuel (y + 1) (n - yearLen y)

/-- Fuel-bounded month lookup within year `y`: starting at month `m` with
`doy` days remaining, subtract whole months.  Returns the 1-based month
and the 0-based day-of-month. -/
def findMonthF (y : Nat) : Nat → Nat → Nat → Nat × Nat
  | 0, m, doy => (m, doy)
  | fuel + 1, m, doy =>
    if doy < monthLen y m then (m, doy)
    else findMonthF y fuel (m + 1) (doy - monthLen y m)

/-- Month lookup within year `y` from a 0-based day-of-year index. -/
def findMonth (y doy : Nat) : Nat × Nat :=
  findMonthF y 11 1 doy

/-- Calendar fields of an instant, as the JS getters return them
(`month` 1-based here; the 0-based JS `getMonth` is `month - 1`). -/
structure Civil where
  year : Int
  month : Nat
  day : Nat
  hour : Nat
  minute : Nat
  second : Nat
deriving DecidableEq

/-- Days in months `1..m` of the (possibly negative) year `y`;
the leap rule is 400-year periodic, so the year is reduced mod 400. -/
def daysUptoI (y : Int) (m : Nat) : Nat :=
  cumNL m + (if 2 ≤ m ∧ isLeap (Int.toNat (y % 400)) then 1 else 0)

/-- Signed day count from 0000-01-01 to the first day of year `y`,
extended to negative years through the 146097-day Gregorian 400-year cycle. -/
def daysBeforeYearI (y : Int) : Int :=
  if 0 ≤ y then (daysBefore y.toNat : Int)
  else
    let c := ((399 - y) / 400).toNat
    (daysBefore (y + 400 * (c : Int)).toNat : Int) - (c : Int) * 146097

/-- Model of `Date.UTC(y, mIdx, d, h, mi, s)` (milliseconds since the epoch).
Out-of-range fields overflow arithmetically exactly as in JS `MakeDay` /
`MakeTime`; an integer year `0..99` is interpreted as `1900 + year`. -/
def dateUTC (y mIdx d h mi s : Int) : Int :=
  let yy := if 0 ≤ y ∧ y ≤ 99 then y + 1900 else y
  let ym := yy + Int.fdiv mIdx 12
  let mn := (Int.fmod mIdx 12).toNat
  let dayNum := daysBeforeYearI ym + (daysUptoI ym mn : Int) + d - 1 - (epochDays : Int)
  dayNum * 86400000 + h * 3600000 + mi * 60000 + s * 1000

/-- UTC calendar fields of an instant: model of the JS `getUTC*` getters.
Negative day counts are shifted into range by whole 400-year cycles. -/
def msToCivil (ms : Int) : Civil :=
  let day := Int.fdiv ms 86400000
  let msod := (Int.fmod ms 86400000).toNat
  let dn := day + (epochDays : Int)
  let c := if 0 ≤ dn then 0 else ((146096 - dn) / 146097).toNat
  let n := (dn + (c : Int) * 146097).toNat
  let rem := n % 146097
  let yr := findYearF (rem + 1) (400 * (n / 146097)) rem
  let md := findMonth yr.1 yr.2
  { year := (yr.1 : Int) - 400 * (c : Int)
    month := md.1
    day := md.2 + 1
    hour := msod / 3600000
    minute := msod / 60000 % 60
    second := msod / 1000 % 60 }

/-! ## The ambient JS runtime -/

/-- The ambient JavaScript runtime: current instant, fixed local-zone offset
(minutes east of UTC), and the behaviour of generic `new Date(string)`
parsing (`none` = Invalid Date). -/
structure JSEnv where
  nowMs : Int
  tzOffsetMin : Int
  parseAny : String → Option Int

/-- Local calendar fields of an instant: the JS `get*` (local) getters. -/
def localCivil (env : JSEnv) (ms : Int) : Civil :=
  msToCivil (ms + env.tzOffsetMin * 60000)

example : (msToCivil 0).year = 1970 := by decide
example : (msToCivil 0).month = 1 ∧ (msToCivil 0).day = 1 := by decide
example : msToCivil (dateUTC 2025 11 22 6 36 15) = ⟨2025, 12, 22, 6, 36, 15⟩ := by decide

/-! ## Character-level models of the source's regular expressions -/

/-- Decimal value of a digit character. -/
def dval (c : Char) : Nat := c.toNat - 48

/-- Model of `String.prototype.includes(c)` for a single character. -/
def containsChar (s : String) (c : Char) : Bool :=
  s.data.any (fun a => a == c)

/-- Read exactly two digit characters (`\d{2}`). -/
def readD2 : List Char → Option (Nat × List Char)
  | a :: b :: r =>
    if a.isDigit && b.isDigit then some (dval a * 10 + dval b, r) else none
  | _ => none

/-- Read exactly four digit characters (`\d{4}`). -/
def readD4 : List Char → Option (Nat × List Char)
  | a :: b :: c :: d :: r =>
    if a.isDigit && b.isDigit && c.isDigit && d.isDigit then
      some (((dval a * 10 + dval b) * 10 + dval c) * 10 + dval d, r)
    else none
  | _ => none

/-- Read one fixed character. -/
def readCh (c : Char) : List Char → Option (List Char)
  | a :: r => if a = c then some r else none
  | _ => none

/-- Match the core pattern `(\d{4})-(\d{2})-(\d{2}) (\d{2}):(\d{2}):(\d{2})`
at the head of the list, returning the six groups and the rest. -/
def sqlAt (l : List Char) : Option ((Nat × Nat × Nat × Nat × Nat × Nat) × List Char) :=
  match readD4 l with
  | none => none
  | some (y, l) =>
  match readCh '-' l with
  | none => none
  | some l =>
  match readD2 l with
  | none => none
  | some (mo, l) =>
  match readCh '-' l with
  | none => none
  | some l =>
  match readD2 l with
  | none => none
  | some (d, l) =>
  match readCh ' ' l with
  | none => none
  | some l =>
  match readD2 l with
  | none => none
  | some (h, l) =>
  match readCh ':' l with
  | none => none
  | some l =>
  match readD2 l with
  | none => none
  | some (mi, l) =>
  match readCh ':' l with
  | none => none
  | some l =>
  match readD2 l with
  | none => none
  | some (s, l) => some ((y, mo, d, h, mi, s), l)

/-- Model of the anchored test `/^\d{4}-\d{2}-\d{2} \d{2}:\d{2}:\d{2}$/`. -/
def sqlTest (s : String) : Bool :=
  match sqlAt s.data with
  | some (_, rest) => rest.isEmpty
  | none => false

/-- Model of the unanchored capture
`/(\d{4})-(\d{2})-(\d{2}) (\d{2}):(\d{2}):(\d{2})/` (leftmost match; the
pattern cannot match at the end of the input, where too few characters
remain). -/
def sqlFind : List Char → Option (Nat × Nat × Nat × Nat × Nat × Nat)
  | [] => none
  | a :: t =>
    match sqlAt (a :: t) with
    | some g => some g.1
    | none => sqlFind t

/-- The JavaScript regex `\s` whitespace class. -/
def isJsWs (c : Char) : Bool :=
  let n := c.toNat
  n == 32 || n == 9 || n == 10 || n == 11 || n == 12 || n == 13 ||
  n == 160 || n == 5760 || (8192 ≤ n && n ≤ 8202) || n == 8232 ||
  n == 8233 || n == 8239 || n == 8287 || n == 12288 || n == 65279

/-- Match the alternation `(AM|PM)` case-insensitively;
returns `true` for PM. -/
def ampmP : List Char → Option (Bool × List Char)
  | a :: m :: r =>
    if (a = 'A' ∨ a = 'a') ∧ (m = 'M' ∨ m = 'm') then some (false, r)
    else if (a = 'P' ∨ a = 'p') ∧ (m = 'M' ∨ m = 'm') then some (true, r)
    else none
  | _ => none

/-- After the hour digits: match `:(\d{2})\s?(AM|PM)` (the optional
whitespace, if present, cannot start `AM`/`PM`, so consuming it greedily is
exact). -/
def afterHour (h : Nat) (l : List Char) : Option ((Nat × Nat × Bool) × List Char) :=
  match readCh ':' l with
  | none => none
  | some l =>
  match readD2 l with
  | none => none
  | some (mm, l) =>
    match l with
    | [] => none
    | c :: r =>
      if isJsWs c then
        match ampmP r with
        | none => none
        | some (pm, rest) => some ((h, mm, pm), rest)
      else
        match ampmP l with
        | none => none
        | some (pm, rest) => some ((h, mm, pm), rest)

/-- Match `(\d{1,2}):(\d{2})\s?(AM|PM)` at the head of the list: the greedy
two-digit hour is tried first, then (as the regex backtracks) one digit. -/
def clockAt (l : List Char) : Option ((Nat × Nat × Bool) × List Char) :=
  match l with
  | [] => none
  | a :: rest =>
    if a.isDigit then
      match rest with
      | [] => none
      | b :: rest2 =>
        if b.isDigit then
          match afterHour (dval a * 10 + dval b) rest2 with
          | some x => some x
          | none => afterHour (dval a) rest
        else afterHour (dval a) rest
    else none

/-- Model of the anchored test `/^\d{1,2}:\d{2}\s?(AM|PM)$/i`. -/
def clockTest (s : String) : Bool :=
  match clockAt s.data with
  | some (_, rest) => rest.isEmpty
  | none => false

/-- Model of the unanchored capture `/(\d{1,2}):(\d{2})\s?(AM|PM)/i`
(leftmost match). -/
def clockFind (l : List Char) : Option (Nat × Nat × Bool) :=
  match clockAt l with
  | some (g, _) => some g
  | none =>
    match l with
    | [] => none
    | _ :: t => clockFind t

/-! ## Renderers (models of `toLocaleTimeString`, of the template literal
`${year}-${month}-...`, and of `toLocaleString` with the options used) -/

/-- The two-character digit list of `n < 100`. -/
def d2c (n : Nat) : List Char :=
  [Nat.digitChar (n / 10 % 10), Nat.digitChar (n % 10)]

/-- The four-character digit list of `n < 10000`. -/
def d4c (n : Nat) : List Char :=
  [Nat.digitChar (n / 1000 % 10), Nat.digitChar (n / 100 % 10),
   Nat.digitChar (n / 10 % 10), Nat.digitChar (n % 10)]

/-- Model of `String(n).padStart(2, '0')`. -/
def pad2 (n : Nat) : String :=
  if n < 100 then String.mk (d2c n) else Nat.repr n

/-- Model of `toLocaleTimeString('en-US', {hour:'2-digit', minute:'2-digit',
hour12:true})` on the local fields of an instant. -/
def renderClock (env : JSEnv) (ms : Int) : String :=
  let c := localCivil env ms
  let h12 := if c.hour % 12 = 0 then 12 else c.hour % 12
  pad2 h12 ++ ":" ++ pad2 c.minute ++ (if c.hour < 12 then " AM" else " PM")

/-- Model of the `${year}-${month}-${day} ${hours}:${minutes}:${seconds}`
template of `formatLocalDateTime`: note the year is NOT padded. -/
def renderDateTime (env : JSEnv) (ms : Int) : String :=
  let c := localCivil env ms
  toString c.year ++ "-" ++ pad2 c.month ++ "-" ++ pad2 c.day ++ " " ++
    pad2 c.hour ++ ":" ++ pad2 c.minute ++ ":" ++ pad2 c.second

/-- English abbreviated month names (`month: 'short'` under `en-US`). -/
def monthShort : Nat → String
  | 1 => "Jan"
  | 2 => "Feb"
  | 3 => "Mar"
  | 4 => "Apr"
  | 5 => "May"
  | 6 => "Jun"
  | 7 => "Jul"
  | 8 => "Aug"
  | 9 => "Sep"
  | 10 => "Oct"
  | 11 => "Nov"
  | 12 => "Dec"
  | _ => ""

/-- Model of the `toLocaleString('en-US', {month:'short', day:'numeric',
year: <conditional>, hour:'numeric', minute:'2-digit', hour12:true})`
call of `formatLastActivity`: the year is included exactly when the
instant's local year differs from the current local year. -/
def renderAbsolute (env : JSEnv) (ms : Int) : String :=
  let c := localCivil env ms
  let n := localCivil env env.nowMs
  let yearPart := if c.year ≠ n.year then ", " ++ toString c.year else ""
  let h12 := if c.hour % 12 = 0 then 12 else c.hour % 12
  monthShort c.month ++ " " ++ toString c.day ++ yearPart ++ ", " ++
    toString h12 ++ ":" ++ pad2 c.minute ++ (if c.hour < 12 then " AM" else " PM")

/-! ## The formatters (embeddings of the source functions) -/

/-- The parse cascade of `formatLocalTime` (lines 16-69 of the timezone
utility): ISO-like by `includes('T')`/`includes('Z')`, then the strict
SQL-style regex (re-matched unanchored for capture; a failed inner capture
returns the input, modelled by `none`), then the bare clock-time regex
(interpreted as a time of day on the current UTC date, converting 12-hour
to 24-hour form sequentially as the source does), else generic parsing. -/
def ltParse (env : JSEnv) (s : String) : Option Int :=
  if containsChar s 'T' || containsChar s 'Z' then env.parseAny s
  else if sqlTest s then
    match sqlFind s.data with
    | some (y, mo, d, h, mi, sec) =>
      some (dateUTC (y : Int) ((mo : Int) - 1) (d : Int) (h : Int) (mi : Int) (sec : Int))
    | none => none
  else if clockTest s then
    match clockFind s.data with
    | some (hh, mm, pm) =>
      let n := msToCivil env.nowMs
      let h1 := if pm && !(hh == 12) then hh + 12 else hh
      let h2 := if !pm && (h1 == 12) then 0 else h1
      some (dateUTC n.year ((n.month : Int) - 1) (n.day : Int) (h2 : Int) (mm : Int) 0)
    | none => none
  else env.parseAny s

/-- Embedding of `formatLocalTime` (timezone utility, lines 10-86).
`none` stands for the JS `null`/`undefined` argument. -/
def formatLocalTime (env : JSEnv) : Option String → String
  | none => "Unknown"
  | some s =>
    if s = "" ∨ s = "Unknown" ∨ s = "Never" ∨ s = "Recent" then
      (if s = "" then "Unknown" else s)
    else
      match ltParse env s with
      | none => s
      | some ms => renderClock env ms

/-- The parse cascade of `formatLocalDateTime` (lines 97-122): as for
`formatLocalTime` but with no clock-time branch. -/
def dtParse (env : JSEnv) (s : String) : Option Int :=
  if containsChar s 'T' || containsChar s 'Z' then env.parseAny s
  else if sqlTest s then
    match sqlFind s.data with
    | some (y, mo, d, h, mi, sec) =>
      some (dateUTC (y : Int) ((mo : Int) - 1) (d : Int) (h : Int) (mi : Int) (sec : Int))
    | none => none
  else env.parseAny s

/-- Embedding of `formatLocalDateTime` (timezone utility, lines 92-141). -/
def formatLocalDateTime (env : JSEnv) : Option String → String
  | none => "Unknown"
  | some s =>
    if s = "" ∨ s = "Unknown" ∨ s = "Never" then
      (if s = "" then "Unknown" else s)
    else
      match dtParse env s with
      | none => s
      | some ms => renderDateTime env ms

/-- Embedding of `formatScreenshotTime` (lines 148-150): delegates. -/
def formatScreenshotTime (env : JSEnv) (timestamp : Option String) : String :=
  formatLocalDateTime env timestamp

/-- Embedding of `formatActivityTime` (lines 157-159): delegates. -/
def formatActivityTime (env : JSEnv) (timestamp : Option String) : String :=
  formatLocalTime env timestamp

/-- The relative-time banding of `formatLastActivity` applied to a parsed
instant `t` (src/src/utils/timeUtils.ts lines 27-65). -/
def laFinish (env : JSEnv) (t : Int) : String :=
  let diffMs := env.nowMs - t
  let diffSeconds := Int.fdiv diffMs 1000
  let diffMinutes := Int.fdiv diffSeconds 60
  let diffHours := Int.fdiv diffMinutes 60
  let diffDays := Int.fdiv diffHours 24
  if diffSeconds < 60 then
    if diffSeconds ≤ 5 then "Just now"
    else toString diffSeconds ++ " second" ++
      (if diffSeconds ≠ 1 then "s" else "") ++ " ago"
  else if diffMinutes < 60 then
    toString diffMinutes ++ " minute" ++
      (if diffMinutes ≠ 1 then "s" else "") ++ " ago"
  else if diffHours < 24 then
    toString diffHours ++ " hour" ++
      (if diffHours ≠ 1 then "s" else "") ++ " ago"
  else if diffDays ≤ 2 then
    toString diffDays ++ " day" ++
      (if diffDays ≠ 1 then "s" else "") ++ " ago"
  else renderAbsolute env t

/-- Embedding of `formatLastActivity` (src/src/utils/timeUtils.ts lines
5-71), including the source's vacuous ISO branching on `T`/`Z` (both
branches call the same constructor). -/
def formatLastActivity (env : JSEnv) (lastActivityStr : String) : String :=
  if lastActivityStr = "" ∨ lastActivityStr = "Unknown" ∨ lastActivityStr = "Never" then
    "Never"
  else
    match (if containsChar lastActivityStr 'T' || containsChar lastActivityStr 'Z' then
             env.parseAny lastActivityStr
           else
             env.parseAny lastActivityStr) with
    | none => lastActivityStr
    | some t => laFinish env t

/-! ## Spec-side definitions

These follow the wording of the specification (§4.2, §4.5, §9) rather than
the structure of the source, and are proved extensionally equal to the
embeddings above. -/

/-- The four input shapes of spec §4.2. -/
inductive TsShape
  | isoLike
  | sqlNaive
  | clockTime
  | fallback
deriving DecidableEq

/-- Spec §4.2: classify a non-sentinel string into exactly one of four
shapes, first match wins, in the given precedence order. -/
def classifyShape (s : String) : TsShape :=
  if containsChar s 'T' || containsChar s 'Z' then TsShape.isoLike
  else if sqlTest s then TsShape.sqlNaive
  else if clockTest s then TsShape.clockTime
  else TsShape.fallback

/-- Spec §4.3 wording for the 12→24-hour conversion: 12 AM → 0, 12 PM
stays 12, PM adds 12 to every other hour. -/
def to24Spec (hh : Nat) (pm : Bool) : Nat :=
  if pm then (if hh = 12 then 12 else hh + 12) else (if hh = 12 then 0 else hh)

/-- Validity check and clock rendering shared by all shapes (spec §4.2
final step + §4.3): invalid instants echo the input. -/
def finishClock (env : JSEnv) (od : Option Int) (s : String) : String :=
  match od with
  | none => s
  | some ms => renderClock env ms

/-- Spec-side version of `formatLocalTime`, written as classification by
`classifyShape` followed by a per-shape parser (spec §4.2/§9 structure). -/
def formatLocalTimeSpec (env : JSEnv) : Option String → String
  | none => "Unknown"
  | some s =>
    if s = "" ∨ s = "Unknown" ∨ s = "Never" ∨ s = "Recent" then
      (if s = "" then "Unknown" else s)
    else
      match classifyShape s with
      | TsShape.isoLike => finishClock env (env.parseAny s) s
      | TsShape.sqlNaive =>
        (match sqlFind s.data with
         | none => s
         | some (y, mo, d, h, mi, sec) =>
           finishClock env
             (some (dateUTC (y : Int) ((mo : Int) - 1) (d : Int) (h : Int) (mi : Int) (sec : Int))) s)
      | TsShape.clockTime =>
        (match clockFind s.data with
         | none => s
         | some (hh, mm, pm) =>
           let n := msToCivil env.nowMs
           finishClock env
             (some (dateUTC n.year ((n.month : Int) - 1) (n.day : Int)
               (to24Spec hh pm : Int) (mm : Int) 0)) s)
      | TsShape.fallback => finishClock env (env.parseAny s) s

/-- The simplified relative-time formatter of claim C9: every non-sentinel
input goes straight to the general-purpose constructor, with no ISO
detection. -/
def formatLastActivitySimple (env : JSEnv) (s : String) : String :=
  if s = "" ∨ s = "Unknown" ∨ s = "Never" then "Never"
  else
    match env.parseAny s with
    | none => s
    | some t => laFinish env t

/-- Spec §4.5 pluralization: `"{n} unit(s) ago"`, singular exactly when
`n = 1`. -/
def pluralSpec (n : Int) (unit : String) : String :=
  toString n ++ unit ++ (if n = 1 then "" else "s") ++ " ago"

/-- Spec §4.5 absolute-date rendering, with the year-inclusion condition
written as an outer case split: the year appears exactly when the
instant's local year differs from the current local year. -/
def absSpec (env : JSEnv) (t : Int) : String :=
  let c := localCivil env t
  let n := localCivil env env.nowMs
  let h12 := if c.hour % 12 = 0 then 12 else c.hour % 12
  let tail := ", " ++ toString h12 ++ ":" ++ pad2 c.minute ++
    (if c.hour < 12 then " AM" else " PM")
  if c.year = n.year then monthShort c.month ++ " " ++ toString c.day ++ tail
  else monthShort c.month ++ " " ++ toString c.day ++ ", " ++ toString c.year ++ tail

/-- Spec §4.5 banding, written from the claim: whole seconds by floor
division, each unit truncating the one below, first matching band wins. -/
def relTimeSpec (env : JSEnv) (t : Int) : String :=
  let secs := Int.fdiv (env.nowMs - t) 1000
  let mins := Int.fdiv secs 60
  let hrs := Int.fdiv mins 60
  let days := Int.fdiv hrs 24
  if secs < 60 then
    if secs ≤ 5 then "Just now" else pluralSpec secs " second"
  else if mins < 60 then pluralSpec mins " minute"
  else if hrs < 24 then pluralSpec hrs " hour"
  else if days ≤ 2 then pluralSpec days " day"
  else absSpec env t

/-- The canonical `YYYY-MM-DD HH:MM:SS` string built from six field
values (used to state the round-trip claim C3). -/
def sqlString (y mo d h mi sec : Nat) : String :=
  String.mk (d4c y ++ '-' :: (d2c mo ++ '-' :: (d2c d ++ ' ' ::
    (d2c h ++ ':' :: (d2c mi ++ ':' :: d2c sec)))))

/-- A concrete runtime for witnesses and counterexamples: the clock reads
the Unix epoch, the local zone is UTC+0, and generic parsing recognises
two designated strings ("x": 10 s in the past, "f": in the future) and
fails on everything else — as `new Date` does on junk such as `""`,
`"Recent"`, or `"blah"`. -/
def env0 : JSEnv where
  nowMs := 0
  tzOffsetMin := 0
  parseAny := fun s =>
    if s = "x" then some (-10000) else if s = "f" then some 5000000 else none

example : formatLocalTime env0 (some "07:01 AM") = "07:01 AM" := by decide
example : formatLocalDateTime env0 (some "2025-12-22 06:36:15") = "2025-12-22 06:36:15" := by decide
example : formatLastActivity env0 "x" = "10 seconds ago" := by decide
example : formatLastActivity env0 "f" = "Just now" := by decide
example : formatLocalDateTime env0 (some "0999-12-31 23:59:59") = "999-12-31 23:59:59" := by decide
example : formatLocalDateTime env0 (some "2025-01-01 24:00:00") = "2025-01-02 00:00:00" := by decide

/-! ## Helper lemmas -/

theorem strAppend_empty (s : String) : s ++ "" = s :=
  String.ext (by simp)

theorem to24_code_eq_spec (hh : Nat) (pm : Bool) :
    (if !pm && ((if pm && !(hh == 12) then hh + 12 else hh) == 12) then 0
     else (if pm && !(hh == 12) then hh + 12 else hh)) = to24Spec hh pm := by
  cases pm <;> by_cases h : hh = 12 <;> simp [to24Spec, h]

theorem fdiv_neg_of_neg {a : Int} (h : a < 0) : Int.fdiv a 1000 < 0 := by
  have hd := Int.fmod_add_fdiv a 1000
  have h1 : 0 ≤ Int.fmod a 1000 := Int.fmod_nonneg' a (by norm_num)
  have h2 : Int.fmod a 1000 < 1000 := Int.fmod_lt_of_pos a (by norm_num)
  omega

theorem plural_code_eq_spec (n : Int) (u : String) :
    toString n ++ u ++ (if n ≠ 1 then "s" else "") ++ " ago" = pluralSpec n u := by
  unfold pluralSpec
  by_cases h : n = 1 <;> simp [h]

theorem renderAbsolute_eq_absSpec (env : JSEnv) (t : Int) :
    renderAbsolute env t = absSpec env t := by
  unfold renderAbsolute absSpec
  by_cases h : (localCivil env t).year = (localCivil env env.nowMs).year
  · simp only [h, ne_eq, not_true_eq_false, if_false, if_pos]
    rw [strAppend_empty]
    simp [String.append_assoc]
  · simp only [h, ne_eq, not_false_eq_true, if_true, if_neg h]
    simp [String.append_assoc]

theorem laFinish_eq_relTimeSpec (env : JSEnv) (t : Int) :
    laFinish env t = relTimeSpec env t := by
  unfold laFinish relTimeSpec
  simp only [plural_code_eq_spec, renderAbsolute_eq_absSpec]

theorem yearLen_pos (y : Nat) : 0 < yearLen y := by
  unfold yearLen
  split <;> omega

theorem isLeap_iff (y : Nat) :
    isLeap y = true ↔ (y % 4 = 0 ∧ (y % 100 ≠ 0 ∨ y % 400 = 0)) := by
  unfold isLeap
  simp [Bool.and_eq_true, beq_iff_eq, Bool.or_eq_true, bne_iff_ne]

theorem yearLen_eq (y : Nat) :
    yearLen y = if y % 4 = 0 ∧ (y % 100 ≠ 0 ∨ y % 400 = 0) then 366 else 365 := by
  unfold yearLen
  by_cases h : y % 4 = 0 ∧ (y % 100 ≠ 0 ∨ y % 400 = 0)
  · rw [if_pos ((isLeap_iff y).mpr h), if_pos h]
  · rw [if_neg (fun hc => h ((isLeap_iff y).mp hc)), if_neg h]

theorem daysBefore_succ (y : Nat) : daysBefore (y + 1) = daysBefore y + yearLen y := by
  rw [yearLen_eq]
  have e4 : (y + 1 + 3) / 4 = (y + 3) / 4 + (if y % 4 = 0 then 1 else 0) := by
    by_cases h : y % 4 = 0 <;> simp [h] <;> omega
  have e100 : (y + 1 + 99) / 100 = (y + 99) / 100 + (if y % 100 = 0 then 1 else 0) := by
    by_cases h : y % 100 = 0 <;> simp [h] <;> omega
  have e400 : (y + 1 + 399) / 400 = (y + 399) / 400 + (if y % 400 = 0 then 1 else 0) := by
    by_cases h : y % 400 = 0 <;> simp [h] <;> omega
  unfold daysBefore
  rw [e4, e100, e400]
  by_cases h4 : y % 4 = 0 <;> by_cases h100 : y % 100 = 0 <;> by_cases h400 : y % 400 = 0 <;>
    simp [h4, h100, h400] <;> omega

theorem daysBefore_mono {a b : Nat} (h : a ≤ b) : daysBefore a ≤ daysBefore b := by
  induction h with
  | refl => exact Nat.le_refl _
  | step hm ih =>
    rename_i m
    show daysBefore a ≤ daysBefore (m + 1)
    have h2 := daysBefore_succ m
    have h3 := yearLen_pos m
    omega

theorem daysBefore_cycle (k : Nat) : daysBefore (400 * k) = 146097 * k := by
  unfold daysBefore
  omega

theorem findYearF_spec : ∀ (N y0 y r : Nat), y0 ≤ y → r < yearLen y →
    daysBefore y - daysBefore y0 + r < N →
    findYearF N y0 (daysBefore y - daysBefore y0 + r) = (y, r) := by
  intro N
  induction N with
  | zero => intro y0 y r _ _ h; omega
  | succ M ih =>
    intro y0 y r hle hr hN
    by_cases he : y0 = y
    · subst he
      simp [findYearF, Nat.sub_self, hr]
    · have hlt : y0 < y := Nat.lt_of_le_of_ne hle he
      have hs := daysBefore_succ y0
      have hmono : daysBefore (y0 + 1) ≤ daysBefore y := daysBefore_mono hlt
      have hmono2 : daysBefore y0 ≤ daysBefore y := daysBefore_mono hle
      have hy0 : yearLen y0 ≤ daysBefore y - daysBefore y0 := by omega
      have hpos := yearLen_pos y0
      unfold findYearF
      rw [if_neg (by omega)]
      have harg : daysBefore y - daysBefore y0 + r - yearLen y0
          = daysBefore y - daysBefore (y0 + 1) + r := by omega
      rw [harg]
      exact ih (y0 + 1) y r hlt hr (by omega)

theorem findYearF_snd_lt : ∀ (N y0 n : Nat), n < N →
    (findYearF N y0 n).2 < yearLen (findYearF N y0 n).1 := by
  intro N
  induction N with
  | zero => intro y0 n h; omega
  | succ M ih =>
    intro y0 n hn
    unfold findYearF
    by_cases h : n < yearLen y0
    · rw [if_pos h]
      exact h
    · rw [if_neg h]
      have hpos := yearLen_pos y0
      exact ih (y0 + 1) (n - yearLen y0) (by omega)

theorem monthLen_le31 (y m : Nat) (h1 : 1 ≤ m) (h2 : m ≤ 12) : monthLen y m ≤ 31 := by
  unfold monthLen monthLenNL
  interval_cases m <;> cases hl : isLeap y <;> simp_all

theorem daysUpto_lt (y m d : Nat) (hm1 : 1 ≤ m) (hm2 : m ≤ 12) (hd1 : 1 ≤ d)
    (hd2 : d ≤ monthLen y m) : daysUptoN y (m - 1) + (d - 1) < yearLen y := by
  unfold yearLen
  unfold monthLen monthLenNL at hd2
  interval_cases m <;> cases hl : isLeap y <;> simp_all [daysUptoN, cumNL] <;> omega

theorem daysUptoN_zero (y : Nat) : daysUptoN y 0 = 0 := by
  simp [daysUptoN, cumNL]

theorem daysUptoN_step (y m : Nat) (h1 : 1 ≤ m) (h2 : m ≤ 12) :
    daysUptoN y m = daysUptoN y (m - 1) + monthLen y m := by
  interval_cases m <;> cases hl : isLeap y <;>
    simp_all [daysUptoN, cumNL, monthLen, monthLenNL]

theorem daysUptoN_mono (y : Nat) {a b : Nat} (h : a ≤ b) (hb : b ≤ 12) :
    daysUptoN y a ≤ daysUptoN y b := by
  induction h with
  | refl => exact Nat.le_refl _
  | step hm ih =>
    rename_i mb
    show daysUptoN y a ≤ daysUptoN y (mb + 1)
    have hs := daysUptoN_step y (mb + 1) (by omega) hb
    have := ih (by omega)
    simp only [Nat.add_sub_cancel] at hs
    omega

theorem daysUpto_yearLen (y : Nat) : daysUptoN y 12 = yearLen y := by
  cases hl : isLeap y <;> simp [daysUptoN, cumNL, yearLen, hl]

theorem findMonthF_spec (y : Nat) : ∀ (fuel m0 m d : Nat), 1 ≤ m0 → m0 ≤ m → m ≤ 12 →
    d < monthLen y m → m - m0 ≤ fuel →
    findMonthF y fuel m0 (daysUptoN y (m - 1) - daysUptoN y (m0 - 1) + d) = (m, d) := by
  intro fuel
  induction fuel with
  | zero =>
    intro m0 m d h1 h2 h3 hd hf
    have he : m0 = m := by omega
    subst he
    simp [findMonthF]
  | succ F ih =>
    intro m0 m d h1 h2 h3 hd hf
    by_cases he : m0 = m
    · subst he
      simp [findMonthF, Nat.sub_self, hd]
    · have hlt : m0 < m := by omega
      have hstep := daysUptoN_step y m0 h1 (by omega)
      have hmono : daysUptoN y m0 ≤ daysUptoN y (m - 1) := daysUptoN_mono y (by omega) (by omega)
      have hmono2 : daysUptoN y (m0 - 1) ≤ daysUptoN y m0 := daysUptoN_mono y (by omega) (by omega)
      unfold findMonthF
      rw [if_neg (by omega)]
      have harg : daysUptoN y (m - 1) - daysUptoN y (m0 - 1) + d - monthLen y m0
          = daysUptoN y (m - 1) - daysUptoN y ((m0 + 1) - 1) + d := by
        simp only [Nat.add_sub_cancel]
        omega
      rw [harg]
      exact ih (m0 + 1) m d (by omega) (by omega) h3 hd (by omega)

theorem findMonth_eq (y m d : Nat) (hm1 : 1 ≤ m) (hm2 : m ≤ 12) (hd : d < monthLen y m) :
    findMonth y (daysUptoN y (m - 1) + d) = (m, d) := by
  unfold findMonth
  have h0 := daysUptoN_zero y
  have e : daysUptoN y (m - 1) + d = daysUptoN y (m - 1) - daysUptoN y (1 - 1) + d := by
    simp [h0]
  rw [e]
  exact findMonthF_spec y 11 1 m d (by omega) hm1 hm2 hd (by omega)

theorem findMonthF_range (y : Nat) : ∀ (fuel m0 doy : Nat), 1 ≤ m0 → m0 + fuel = 12 →
    doy + daysUptoN y (m0 - 1) < yearLen y →
    1 ≤ (findMonthF y fuel m0 doy).1 ∧ (findMonthF y fuel m0 doy).1 ≤ 12 ∧
    (findMonthF y fuel m0 doy).2 < monthLen y (findMonthF y fuel m0 doy).1 := by
  intro fuel
  induction fuel with
  | zero =>
    intro m0 doy h1 h2 hb
    have he : m0 = 12 := by omega
    subst he
    have h12 := daysUpto_yearLen y
    have hstep := daysUptoN_step y 12 (by omega) (by omega)
    simp only [findMonthF]
    refine ⟨by omega, by omega, by omega⟩
  | succ F ih =>
    intro m0 doy h1 h2 hb
    unfold findMonthF
    by_cases hc : doy < monthLen y m0
    · rw [if_pos hc]
      exact ⟨by omega, by omega, hc⟩
    · rw [if_neg hc]
      have hstep := daysUptoN_step y m0 h1 (by omega)
      refine ih (m0 + 1) (doy - monthLen y m0) (by omega) (by omega) ?_
      simp only [Nat.add_sub_cancel]
      omega

theorem findMonth_range (y doy : Nat) (h : doy < yearLen y) :
    1 ≤ (findMonth y doy).1 ∧ (findMonth y doy).1 ≤ 12 ∧
    (findMonth y doy).2 < monthLen y (findMonth y doy).1 := by
  unfold findMonth
  refine findMonthF_range y 11 1 doy (by omega) (by omega) ?_
  rw [daysUptoN_zero]
  omega

theorem findYearF_at (S y r : Nat) (hr : r < yearLen y) (hS : S = daysBefore y + r) :
    findYearF (S % 146097 + 1) (400 * (S / 146097)) (S % 146097) = (y, r) := by
  set k := S / 146097 with hk
  have hcyc : daysBefore (400 * k) = 146097 * k := daysBefore_cycle k
  have hky : 400 * k ≤ y := by
    by_contra hc
    push_neg at hc
    have h1 : daysBefore (y + 1) ≤ daysBefore (400 * k) := daysBefore_mono (by omega)
    have h2 : daysBefore (y + 1) = daysBefore y + yearLen y := daysBefore_succ y
    omega
  have hmono : daysBefore (400 * k) ≤ daysBefore y := daysBefore_mono hky
  have harg : S % 146097 = daysBefore y - daysBefore (400 * k) + r := by omega
  rw [harg]
  exact findYearF_spec _ (400 * k) y r hky hr (by omega)

theorem fdiv_fmod_day (q r : Int) (h0 : 0 ≤ r) (h1 : r < 86400000) :
    Int.fdiv (q * 86400000 + r) 86400000 = q ∧
    Int.fmod (q * 86400000 + r) 86400000 = r := by
  have hd := Int.fmod_add_fdiv (q * 86400000 + r) 86400000
  have hge : 0 ≤ Int.fmod (q * 86400000 + r) 86400000 :=
    Int.fmod_nonneg' _ (by norm_num)
  have hlt : Int.fmod (q * 86400000 + r) 86400000 < 86400000 :=
    Int.fmod_lt_of_pos _ (by norm_num)
  constructor <;> omega

theorem isLeap_mod400 (y : Nat) : isLeap (y % 400) = isLeap y := by
  unfold isLeap
  rw [Nat.mod_mod_of_dvd y (show (4 : Nat) ∣ 400 by norm_num),
    Nat.mod_mod_of_dvd y (show (100 : Nat) ∣ 400 by norm_num),
    Nat.mod_mod_of_dvd y (show (400 : Nat) ∣ 400 by norm_num)]

theorem daysUptoI_coe (y m : Nat) : daysUptoI (y : Int) m = daysUptoN y m := by
  unfold daysUptoI daysUptoN
  have e : ((y : Int) % 400).toNat = y % 400 := by omega
  rw [e, isLeap_mod400]

theorem daysBeforeYearI_coe (y : Nat) : daysBeforeYearI (y : Int) = (daysBefore y : Int) := by
  unfold daysBeforeYearI
  rw [if_pos (by omega : (0 : Int) ≤ (y : Int))]
  have e : ((y : Int)).toNat = y := by omega
  rw [e]

theorem msToCivil_eval (q r : Int) (S : Nat) (hr0 : 0 ≤ r) (hr1 : r < 86400000)
    (hq : q + (epochDays : Int) = (S : Int)) :
    msToCivil (q * 86400000 + r) =
      { year := ((findYearF (S % 146097 + 1) (400 * (S / 146097)) (S % 146097)).1 : Int)
        month := (findMonth (findYearF (S % 146097 + 1) (400 * (S / 146097)) (S % 146097)).1
          (findYearF (S % 146097 + 1) (400 * (S / 146097)) (S % 146097)).2).1
        day := (findMonth (findYearF (S % 146097 + 1) (400 * (S / 146097)) (S % 146097)).1
          (findYearF (S % 146097 + 1) (400 * (S / 146097)) (S % 146097)).2).2 + 1
        hour := r.toNat / 3600000
        minute := r.toNat / 60000 % 60
        second := r.toNat / 1000 % 60 } := by
  obtain ⟨hfd, hfm⟩ := fdiv_fmod_day q r hr0 hr1
  simp only [msToCivil]
  rw [hfd, hfm, hq]
  rw [if_pos (by omega : (0 : Int) ≤ (S : Int))]
  have e1 : ((S : Int) + ((0 : Nat) : Int) * 146097).toNat = S := by omega
  rw [e1]
  simp

theorem msToCivil_dateUTC (y m d h mi s : Nat) (hy1 : 100 ≤ y) (hy2 : y ≤ 9999)
    (hm1 : 1 ≤ m) (hm2 : m ≤ 12) (hd1 : 1 ≤ d) (hd2 : d ≤ monthLen y m)
    (hh : h < 24) (hmi : mi < 60) (hs : s < 60) :
    msToCivil (dateUTC (y : Int) ((m : Int) - 1) (d : Int) (h : Int) (mi : Int) (s : Int)) =
      ⟨(y : Int), m, d, h, mi, s⟩ := by
  have hfd : Int.fdiv ((m : Int) - 1) 12 = 0 := by
    rw [Int.fdiv_eq_ediv _ (by norm_num)]
    omega
  have hfm : Int.fmod ((m : Int) - 1) 12 = ((m - 1 : Nat) : Int) := by
    rw [Int.fmod_eq_emod _ (by norm_num)]
    omega
  have hms : dateUTC (y : Int) ((m : Int) - 1) (d : Int) (h : Int) (mi : Int) (s : Int)
      = (((daysBefore y + daysUptoN y (m - 1) + (d - 1) : Nat) : Int) - (epochDays : Int))
          * 86400000
        + ((h * 3600000 + mi * 60000 + s * 1000 : Nat) : Int) := by
    simp only [dateUTC]
    rw [if_neg (by omega), hfd, add_zero, hfm]
    have e2 : (((m - 1 : Nat) : Int)).toNat = m - 1 := by omega
    rw [e2, daysBeforeYearI_coe, daysUptoI_coe]
    omega
  rw [hms]
  rw [msToCivil_eval
    (((daysBefore y + daysUptoN y (m - 1) + (d - 1) : Nat) : Int) - (epochDays : Int))
    ((h * 3600000 + mi * 60000 + s * 1000 : Nat) : Int)
    (daysBefore y + daysUptoN y (m - 1) + (d - 1))
    (by omega) (by omega) (by omega)]
  have hr : daysUptoN y (m - 1) + (d - 1) < yearLen y := daysUpto_lt y m d hm1 hm2 hd1 hd2
  rw [findYearF_at (daysBefore y + daysUptoN y (m - 1) + (d - 1)) y
    (daysUptoN y (m - 1) + (d - 1)) hr (by omega)]
  rw [(rfl : ((y, daysUptoN y (m - 1) + (d - 1)) : Nat × Nat).1 = y),
    (rfl : ((y, daysUptoN y (m - 1) + (d - 1)) : Nat × Nat).2 = daysUptoN y (m - 1) + (d - 1))]
  rw [findMonth_eq y m (d - 1) hm1 hm2 (by omega)]
  congr 1 <;> omega

theorem msToCivil_ranges (ms : Int) :
    1 ≤ (msToCivil ms).month ∧ (msToCivil ms).month ≤ 12 ∧
    1 ≤ (msToCivil ms).day ∧ (msToCivil ms).day ≤ 31 ∧
    (msToCivil ms).hour < 24 ∧ (msToCivil ms).minute < 60 ∧ (msToCivil ms).second < 60 := by
  have hge : 0 ≤ Int.fmod ms 86400000 := Int.fmod_nonneg' _ (by norm_num)
  have hlt : Int.fmod ms 86400000 < 86400000 := Int.fmod_lt_of_pos _ (by norm_num)
  have hmsod : (Int.fmod ms 86400000).toNat < 86400000 := by omega
  simp only [msToCivil]
  set n := (Int.fdiv ms 86400000 + (epochDays : Int) +
    ((if (0 : Int) ≤ Int.fdiv ms 86400000 + (epochDays : Int) then (0 : Nat)
      else ((146096 - (Int.fdiv ms 86400000 + (epochDays : Int))) / 146097).toNat : Nat) : Int)
      * 146097).toNat with hn
  have hyl := findYearF_snd_lt (n % 146097 + 1) (400 * (n / 146097)) (n % 146097) (by omega)
  have hrange := findMonth_range _ _ hyl
  have hml := monthLen_le31
    (findYearF (n % 146097 + 1) (400 * (n / 146097)) (n % 146097)).1
    (findMonth (findYearF (n % 146097 + 1) (400 * (n / 146097)) (n % 146097)).1
      (findYearF (n % 146097 + 1) (400 * (n / 146097)) (n % 146097)).2).1
    hrange.1 hrange.2.1
  refine ⟨hrange.1, hrange.2.1, by omega, by omega, by omega, by omega, by omega⟩

theorem digitChar_mod (k : Nat) :
    (Nat.digitChar (k % 10)).isDigit = true ∧ dval (Nat.digitChar (k % 10)) = k % 10 ∧
    (Nat.digitChar (k % 10) == 'T') = false ∧ (Nat.digitChar (k % 10) == 'Z') = false := by
  have h : k % 10 < 10 := Nat.mod_lt k (by norm_num)
  set m := k % 10 with hm
  interval_cases m <;> decide

theorem readCh_cons (c : Char) (r : List Char) : readCh c (c :: r) = some r := by
  simp [readCh]

theorem readD2_d2c (n : Nat) (hn : n < 100) (r : List Char) :
    readD2 (d2c n ++ r) = some (n, r) := by
  have h1 := digitChar_mod (n / 10)
  have h2 := digitChar_mod n
  simp [readD2, d2c, h1.1, h2.1, h1.2.1, h2.2.1]
  omega

theorem readD4_d4c (n : Nat) (hn : n < 10000) (r : List Char) :
    readD4 (d4c n ++ r) = some (n, r) := by
  have h1 := digitChar_mod (n / 1000)
  have h2 := digitChar_mod (n / 100)
  have h3 := digitChar_mod (n / 10)
  have h4 := digitChar_mod n
  simp [readD4, d4c, h1.1, h2.1, h3.1, h4.1, h1.2.1, h2.2.1, h3.2.1, h4.2.1]
  omega

theorem readD2_d2c_nil (n : Nat) (hn : n < 100) : readD2 (d2c n) = some (n, []) := by
  have e := readD2_d2c n hn []
  simpa using e

theorem sqlAt_canonical (y mo d h mi sec : Nat) (hy : y < 10000) (hmo : mo < 100)
    (hd : d < 100) (hh : h < 100) (hmi : mi < 100) (hsec : sec < 100) :
    sqlAt (d4c y ++ '-' :: (d2c mo ++ '-' :: (d2c d ++ ' ' ::
        (d2c h ++ ':' :: (d2c mi ++ ':' :: d2c sec))))) =
      some ((y, mo, d, h, mi, sec), []) := by
  simp only [sqlAt, readD4_d4c y hy, readCh_cons, readD2_d2c mo hmo, readD2_d2c d hd,
    readD2_d2c h hh, readD2_d2c mi hmi, readD2_d2c_nil sec hsec]

theorem sqlFind_cons (a : Char) (t : List Char) :
    sqlFind (a :: t) =
      (match sqlAt (a :: t) with
       | some g => some g.1
       | none => sqlFind t) := rfl

theorem sqlFind_of_hit (l : List Char) (g : Nat × Nat × Nat × Nat × Nat × Nat)
    (rest : List Char) (h : sqlAt l = some (g, rest)) : sqlFind l = some g := by
  cases l with
  | nil =>
    rw [show sqlAt ([] : List Char) = none from rfl] at h
    cases h
  | cons a t =>
    rw [sqlFind_cons, h]

theorem sqlString_data (y mo d h mi sec : Nat) :
    (sqlString y mo d h mi sec).data = d4c y ++ '-' :: (d2c mo ++ '-' :: (d2c d ++ ' ' ::
      (d2c h ++ ':' :: (d2c mi ++ ':' :: d2c sec)))) := rfl

theorem sqlTest_canonical (y mo d h mi sec : Nat) (hy : y < 10000) (hmo : mo < 100)
    (hd : d < 100) (hh : h < 100) (hmi : mi < 100) (hsec : sec < 100) :
    sqlTest (sqlString y mo d h mi sec) = true := by
  unfold sqlTest
  rw [sqlString_data, sqlAt_canonical y mo d h mi sec hy hmo hd hh hmi hsec]
  rfl

theorem sqlFind_canonical (y mo d h mi sec : Nat) (hy : y < 10000) (hmo : mo < 100)
    (hd : d < 100) (hh : h < 100) (hmi : mi < 100) (hsec : sec < 100) :
    sqlFind (sqlString y mo d h mi sec).data = some (y, mo, d, h, mi, sec) := by
  rw [sqlString_data]
  exact sqlFind_of_hit _ _ _ (sqlAt_canonical y mo d h mi sec hy hmo hd hh hmi hsec)

theorem sqlString_no_TZ (y mo d h mi sec : Nat) :
    containsChar (sqlString y mo d h mi sec) 'T' = false ∧
    containsChar (sqlString y mo d h mi sec) 'Z' = false := by
  have h1 := digitChar_mod (y / 1000)
  have h2 := digitChar_mod (y / 100)
  have h3 := digitChar_mod (y / 10)
  have h4 := digitChar_mod y
  have h5 := digitChar_mod (mo / 10)
  have h6 := digitChar_mod mo
  have h7 := digitChar_mod (d / 10)
  have h8 := digitChar_mod d
  have h9 := digitChar_mod (h / 10)
  have h10 := digitChar_mod h
  have h11 := digitChar_mod (mi / 10)
  have h12 := digitChar_mod mi
  have h13 := digitChar_mod (sec / 10)
  have h14 := digitChar_mod sec
  unfold containsChar
  rw [sqlString_data]
  simp [d4c, d2c, h1.2.2.1, h2.2.2.1, h3.2.2.1, h4.2.2.1, h5.2.2.1, h6.2.2.1,
    h7.2.2.1, h8.2.2.1, h9.2.2.1, h10.2.2.1, h11.2.2.1, h12.2.2.1, h13.2.2.1, h14.2.2.1,
    h1.2.2.2, h2.2.2.2, h3.2.2.2, h4.2.2.2, h5.2.2.2, h6.2.2.2,
    h7.2.2.2, h8.2.2.2, h9.2.2.2, h10.2.2.2, h11.2.2.2, h12.2.2.2, h13.2.2.2, h14.2.2.2]

theorem sqlString_length (y mo d h mi sec : Nat) :
    (sqlString y mo d h mi sec).length = 19 := by
  show (sqlString y mo d h mi sec).data.length = 19
  rw [sqlString_data]
  simp [d4c, d2c]

theorem sqlString_ne_sentinels (y mo d h mi sec : Nat) :
    sqlString y mo d h mi sec ≠ "" ∧ sqlString y mo d h mi sec ≠ "Unknown" ∧
    sqlString y mo d h mi sec ≠ "Never" := by
  have hl := sqlString_length y mo d h mi sec
  refine ⟨?_, ?_, ?_⟩ <;> intro hc <;> rw [hc] at hl <;> simp [String.length] at hl

/-! ## Decimal rendering lemmas: `Nat.repr` of 2- and 4-digit numbers -/

theorem toDigitsCore_one (fuel n : Nat) (acc : List Char) (hf : 0 < fuel) (hn : n < 10) :
    Nat.toDigitsCore 10 fuel n acc = Nat.digitChar n :: acc := by
  obtain ⟨f, rfl⟩ : ∃ f, fuel = f + 1 := ⟨fuel - 1, by omega⟩
  unfold Nat.toDigitsCore
  have h0 : n / 10 = 0 := by omega
  simp [h0, Nat.mod_eq_of_lt hn]

theorem toDigitsCore_two (fuel n : Nat) (acc : List Char) (hf : 2 ≤ fuel)
    (h1 : 10 ≤ n) (h2 : n < 100) :
    Nat.toDigitsCore 10 fuel n acc =
      Nat.digitChar (n / 10) :: Nat.digitChar (n % 10) :: acc := by
  obtain ⟨f, rfl⟩ : ∃ f, fuel = f + 1 := ⟨fuel - 1, by omega⟩
  unfold Nat.toDigitsCore
  rw [if_neg (by omega)]
  rw [toDigitsCore_one f (n / 10) _ (by omega) (by omega)]

theorem toDigitsCore_three (fuel n : Nat) (acc : List Char) (hf : 3 ≤ fuel)
    (h1 : 100 ≤ n) (h2 : n < 1000) :
    Nat.toDigitsCore 10 fuel n acc =
      Nat.digitChar (n / 100) :: Nat.digitChar (n / 10 % 10) :: Nat.digitChar (n % 10) :: acc := by
  obtain ⟨f, rfl⟩ : ∃ f, fuel = f + 1 := ⟨fuel - 1, by omega⟩
  unfold Nat.toDigitsCore
  rw [if_neg (by omega)]
  rw [toDigitsCore_two f (n / 10) _ (by omega) (by omega) (by omega)]
  have e1 : n / 10 / 10 = n / 100 := by omega
  have e2 : n / 10 % 10 = n / 10 % 10 := rfl
  rw [e1]

theorem toDigitsCore_four (fuel n : Nat) (acc : List Char) (hf : 4 ≤ fuel)
    (h1 : 1000 ≤ n) (h2 : n < 10000) :
    Nat.toDigitsCore 10 fuel n acc =
      Nat.digitChar (n / 1000) :: Nat.digitChar (n / 100 % 10) ::
      Nat.digitChar (n / 10 % 10) :: Nat.digitChar (n % 10) :: acc := by
  obtain ⟨f, rfl⟩ : ∃ f, fuel = f + 1 := ⟨fuel - 1, by omega⟩
  unfold Nat.toDigitsCore
  rw [if_neg (by omega)]
  rw [toDigitsCore_three f (n / 10) _ (by omega) (by omega) (by omega)]
  have e1 : n / 10 / 100 = n / 1000 := by omega
  have e2 : n / 10 / 10 % 10 = n / 100 % 10 := by omega
  rw [e1, e2]

theorem repr_four (n : Nat) (h1 : 1000 ≤ n) (h2 : n < 10000) :
    Nat.repr n = String.mk (d4c n) := by
  show (Nat.toDigits 10 n).asString = String.mk (d4c n)
  unfold Nat.toDigits
  rw [toDigitsCore_four (n + 1) n [] (by omega) h1 h2]
  have e1 : n / 1000 % 10 = n / 1000 := by omega
  unfold d4c
  rw [e1]
  rfl

theorem toString_intCast (n : Nat) : toString ((n : Nat) : Int) = Nat.repr n := rfl

theorem pad2_d2c (n : Nat) (h : n < 100) : pad2 n = String.mk (d2c n) := by
  unfold pad2
  rw [if_pos h]

theorem pad2_len (n : Nat) (h : n < 100) : (pad2 n).length = 2 := by
  rw [pad2_d2c n h]
  show (String.mk (d2c n)).data.length = 2
  simp [d2c]

theorem mk_append (a b : List Char) : String.mk a ++ String.mk b = String.mk (a ++ b) := rfl

/-! ## The claims -/

/-- C8: `formatScreenshotTime` is behaviorally identical to
`formatLocalDateTime`, and `formatActivityTime` to `formatLocalTime`, on
every input (including null/undefined, modelled by `none`, sentinels, and
unparseable strings). -/
theorem c8_wrappers_delegate (env : JSEnv) (o : Option String) :
    formatScreenshotTime env o = formatLocalDateTime env o ∧
    formatActivityTime env o = formatLocalTime env o :=
  ⟨rfl, rfl⟩

/-- C9: in `formatLastActivity` the ISO branch (input contains 'T' or 'Z')
and the fallback branch call the same general-purpose constructor with no
UTC-forcing step, so the function is extensionally equal to the simplified
version that unconditionally parses every non-sentinel input with the
general-purpose constructor: the ISO-detection test has no effect. -/
theorem c9_iso_detection_no_effect (env : JSEnv) (s : String) :
    formatLastActivity env s = formatLastActivitySimple env s := by
  unfold formatLastActivity formatLastActivitySimple
  rw [ite_self]

/-- C4: `formatLocalTime` classifies every non-sentinel input into exactly
one of four shapes by first-match-wins precedence — contains 'T' or 'Z'
anywhere → general constructor; else the strict `YYYY-MM-DD HH:MM:SS`
regex → UTC fields; else the bare clock-time regex → time-of-day; else the
general constructor — and in the regex branches a failed inner capture
echoes the input.  Stated as extensional equality with the spec-side
classifier `formatLocalTimeSpec` (which also agrees on sentinels). -/
theorem c4_shape_precedence (env : JSEnv) (o : Option String) :
    formatLocalTime env o = formatLocalTimeSpec env o := by
  cases o with
  | none => rfl
  | some s =>
    simp only [formatLocalTime, formatLocalTimeSpec]
    unfold ltParse classifyShape
    by_cases hg : s = "" ∨ s = "Unknown" ∨ s = "Never" ∨ s = "Recent"
    · rw [if_pos hg, if_pos hg]
    · rw [if_neg hg, if_neg hg]
      by_cases hTZ : (containsChar s 'T' || containsChar s 'Z') = true
      · rw [if_pos hTZ, if_pos hTZ]
        cases hp : env.parseAny s <;> simp [hp, finishClock]
      · rw [if_neg hTZ, if_neg hTZ]
        by_cases hsql : sqlTest s = true
        · rw [if_pos hsql, if_pos hsql]
          cases hsf : sqlFind s.data with
          | none => simp [hsf]
          | some g =>
            obtain ⟨y, mo, d, h, mi, sec⟩ := g
            simp [hsf, finishClock]
        · rw [if_neg hsql, if_neg hsql]
          by_cases hck : clockTest s = true
          · rw [if_pos hck, if_pos hck]
            cases hcf : clockFind s.data with
            | none => simp [hcf]
            | some g =>
              obtain ⟨hh, mm, pm⟩ := g
              simp only [hcf, finishClock]
              rw [← to24_code_eq_spec]
          · rw [if_neg hck, if_neg hck]
            cases hp : env.parseAny s <;> simp [hp, finishClock]

/-- C6: divergent sentinel guard sets.  `formatLocalTime` short-circuits
all of null/undefined (`none`), `""`, `"Unknown"`, `"Never"`, `"Recent"`,
with the first three yielding `"Unknown"`; `formatLocalDateTime` guards
only `none`/`""`/`"Unknown"`/`"Never"`, and `"Recent"` is not
short-circuited there: it proceeds to parsing (rendered if the constructor
accepted it), fails in a real runtime, and is returned unchanged. -/
theorem c6_sentinel_guard_divergence (env : JSEnv) :
    formatLocalTime env none = "Unknown" ∧
    formatLocalTime env (some "") = "Unknown" ∧
    formatLocalTime env (some "Unknown") = "Unknown" ∧
    formatLocalTime env (some "Never") = "Never" ∧
    formatLocalTime env (some "Recent") = "Recent" ∧
    formatLocalDateTime env none = "Unknown" ∧
    formatLocalDateTime env (some "") = "Unknown" ∧
    formatLocalDateTime env (some "Unknown") = "Unknown" ∧
    formatLocalDateTime env (some "Never") = "Never" ∧
    (env.parseAny "Recent" = none → formatLocalDateTime env (some "Recent") = "Recent") ∧
    (∀ t : Int, env.parseAny "Recent" = some t →
      formatLocalDateTime env (some "Recent") = renderDateTime env t) := by
  have e : formatLocalDateTime env (some "Recent") =
      (match env.parseAny "Recent" with
       | none => "Recent"
       | some ms => renderDateTime env ms) := rfl
  refine ⟨rfl, rfl, rfl, rfl, rfl, rfl, rfl, rfl, rfl, ?_, ?_⟩
  · intro h
    rw [e, h]
  · intro t h
    rw [e, h]

/-- Witness for C6 in the concrete runtime `env0` (where the generic
constructor rejects `"Recent"`, as real JS engines do). -/
theorem c6_sentinel_guard_divergence_witness :
    formatLocalTime env0 none = "Unknown" ∧
    formatLocalDateTime env0 (some "Recent") = "Recent" :=
  ⟨(c6_sentinel_guard_divergence env0).1,
   ((c6_sentinel_guard_divergence env0).2.2.2.2.2.2.2.2.2.1 rfl)⟩

/-- C2 counterexample: the empty string matches none of the recognized
shapes and fails generic parsing, yet no formatter returns it unchanged —
`formatLocalTime` and `formatLocalDateTime` return `"Unknown"` and
`formatLastActivity` returns `"Never"`, because the sentinel guard runs
before parsing. -/
theorem c2_counterexample_empty_string :
    env0.parseAny "" = none ∧ sqlTest "" = false ∧ clockTest "" = false ∧
    containsChar "" 'T' = false ∧ containsChar "" 'Z' = false ∧
    formatLocalTime env0 (some "") = "Unknown" ∧
    formatLocalDateTime env0 (some "") = "Unknown" ∧
    formatLastActivity env0 "" = "Never" ∧
    ("Unknown" : String) ≠ "" ∧ ("Never" : String) ≠ "" := by
  decide

/-- C2 as amended: for every input string *outside the sentinel guard
sets* that matches neither regex shape and whose generic parse fails, each
of the three formatters returns the input unchanged (and, being total Lean
functions into `String`, they always produce a string and cannot throw). -/
theorem c2_unparseable_echo (env : JSEnv) (s : String)
    (hs1 : s ≠ "") (hs2 : s ≠ "Unknown") (hs3 : s ≠ "Never") (hs4 : s ≠ "Recent")
    (hp : env.parseAny s = none) (hsql : sqlTest s = false) (hck : clockTest s = false) :
    formatLocalTime env (some s) = s ∧
    formatLocalDateTime env (some s) = s ∧
    formatLastActivity env s = s := by
  refine ⟨?_, ?_, ?_⟩
  · simp only [formatLocalTime]
    unfold ltParse
    rw [if_neg (by simp [hs1, hs2, hs3, hs4])]
    by_cases hTZ : (containsChar s 'T' || containsChar s 'Z') = true
    · rw [if_pos hTZ, hp]
    · rw [if_neg hTZ, if_neg (by simp [hsql]), if_neg (by simp [hck]), hp]
  · simp only [formatLocalDateTime]
    unfold dtParse
    rw [if_neg (by simp [hs1, hs2, hs3])]
    by_cases hTZ : (containsChar s 'T' || containsChar s 'Z') = true
    · rw [if_pos hTZ, hp]
    · rw [if_neg hTZ, if_neg (by simp [hsql]), hp]
  · unfold formatLastActivity
    rw [if_neg (by simp [hs1, hs2, hs3]), ite_self, hp]

/-- Witness for C2 (amended) at the unparseable input `"blah"`. -/
theorem c2_unparseable_echo_witness :
    env0.parseAny "blah" = none ∧ sqlTest "blah" = false ∧ clockTest "blah" = false ∧
    formatLocalTime env0 (some "blah") = "blah" ∧
    formatLocalDateTime env0 (some "blah") = "blah" ∧
    formatLastActivity env0 "blah" = "blah" := by
  refine ⟨rfl, by decide, by decide, ?_, ?_, ?_⟩
  · exact (c2_unparseable_echo env0 "blah" (by decide) (by decide) (by decide)
      (by decide) rfl (by decide) (by decide)).1
  · exact (c2_unparseable_echo env0 "blah" (by decide) (by decide) (by decide)
      (by decide) rfl (by decide) (by decide)).2.1
  · exact (c2_unparseable_echo env0 "blah" (by decide) (by decide) (by decide)
      (by decide) rfl (by decide) (by decide)).2.2

/-- C5: a bare clock-time input `H:MM`/`HH:MM` with optional space and
case-insensitive AM/PM is interpreted as that time of day on the current
UTC calendar date (year, month, day read from "now" in UTC), with 12-hour
to 24-hour conversion given by 12 AM → 0, 12 PM → 12, PM adding 12 to
every other hour, and the resulting UTC instant is rendered as a local
clock time. -/
theorem c5_clock_time_branch (env : JSEnv) (s : String) (hh mm : Nat) (pm : Bool)
    (hg : ¬(s = "" ∨ s = "Unknown" ∨ s = "Never" ∨ s = "Recent"))
    (hTZ : (containsChar s 'T' || containsChar s 'Z') = false)
    (hsql : sqlTest s = false)
    (hck : clockTest s = true)
    (hcf : clockFind s.data = some (hh, mm, pm)) :
    formatLocalTime env (some s) =
      renderClock env
        (dateUTC (msToCivil env.nowMs).year (((msToCivil env.nowMs).month : Int) - 1)
          ((msToCivil env.nowMs).day : Int) ((to24Spec hh pm : Nat) : Int) (mm : Int) 0) := by
  simp only [formatLocalTime]
  rw [if_neg hg]
  unfold ltParse
  rw [if_neg (by simp [hTZ]), if_neg (by simp [hsql]), if_pos hck, hcf]
  simp only [to24_code_eq_spec]

/-- Witness for C5: `"07:01 AM"` under `env0` (now = epoch, zone UTC+0)
renders back as `"07:01 AM"`. -/
theorem c5_clock_time_branch_witness :
    clockFind ("07:01 AM" : String).data = some (7, 1, false) ∧
    formatLocalTime env0 (some "07:01 AM") =
      renderClock env0
        (dateUTC (msToCivil env0.nowMs).year (((msToCivil env0.nowMs).month : Int) - 1)
          ((msToCivil env0.nowMs).day : Int) ((to24Spec 7 false : Nat) : Int) (1 : Int) 0) ∧
    formatLocalTime env0 (some "07:01 AM") = "07:01 AM" :=
  ⟨by decide,
   c5_clock_time_branch env0 "07:01 AM" 7 1 false (by decide) (by decide) (by decide)
     (by decide) (by decide),
   by decide⟩

/-- C10: any parseable instant strictly in the future (by any amount)
makes the elapsed floor-seconds negative, which satisfies both the
`< 60` band and the `≤ 5` sub-band, so `formatLastActivity` returns
`"Just now"`. -/
theorem c10_future_returns_just_now (env : JSEnv) (s : String) (t : Int)
    (h1 : s ≠ "") (h2 : s ≠ "Unknown") (h3 : s ≠ "Never")
    (hp : env.parseAny s = some t) (hfut : env.nowMs < t) :
    formatLastActivity env s = "Just now" := by
  unfold formatLastActivity
  rw [if_neg (by simp [h1, h2, h3]), ite_self, hp]
  have hneg : Int.fdiv (env.nowMs - t) 1000 < 0 := fdiv_neg_of_neg (by omega)
  show laFinish env t = "Just now"
  simp only [laFinish]
  rw [if_pos (show Int.fdiv (env.nowMs - t) 1000 < 60 by omega),
    if_pos (show Int.fdiv (env.nowMs - t) 1000 ≤ 5 by omega)]

/-- Witness for C10: an instant 5000 s in the future still renders as
`"Just now"`. -/
theorem c10_future_returns_just_now_witness :
    env0.parseAny "f" = some 5000000 ∧ env0.nowMs < 5000000 ∧
    formatLastActivity env0 "f" = "Just now" :=
  ⟨rfl, by decide,
   c10_future_returns_just_now env0 "f" 5000000 (by decide) (by decide) (by decide)
     rfl (by decide)⟩

/-- C1: for every parseable past instant, `formatLastActivity` computes
whole seconds by floor division of the millisecond difference, derives
minutes/hours/days by successive integer division, and picks the first
matching band (`"Just now"` at ≤ 5 s; `"{n} second/minute/hour/day(s)
ago"` with singular exactly at n = 1; else an absolute date that includes
the year exactly when the instant's local year differs from the current
one) — stated as equality with the spec-side `relTimeSpec`. -/
theorem c1_relative_time_bands (env : JSEnv) (s : String) (t : Int)
    (h1 : s ≠ "") (h2 : s ≠ "Unknown") (h3 : s ≠ "Never")
    (hp : env.parseAny s = some t) (_hpast : t ≤ env.nowMs) :
    formatLastActivity env s = relTimeSpec env t := by
  unfold formatLastActivity
  rw [if_neg (by simp [h1, h2, h3]), ite_self, hp]
  exact laFinish_eq_relTimeSpec env t

/-- C3 counterexample: strings of the exact `YYYY-MM-DD HH:MM:SS` shape
whose fields are out of calendar range (hour 24, month 13, day 30 of
February) or whose year is `00xx` (remapped to `19xx` by `Date.UTC`) do
not round trip under a UTC+0 local zone. -/
theorem c3_counterexample_overflow :
    sqlTest "2025-01-01 24:00:00" = true ∧
    env0.tzOffsetMin = 0 ∧
    formatLocalDateTime env0 (some "2025-01-01 24:00:00") = "2025-01-02 00:00:00" ∧
    ("2025-01-02 00:00:00" : String) ≠ "2025-01-01 24:00:00" ∧
    formatLocalDateTime env0 (some "0099-01-01 00:00:00") = "1999-01-01 00:00:00" ∧
    formatLocalDateTime env0 (some "2025-13-01 00:00:00") = "2026-01-01 00:00:00" ∧
    formatLocalDateTime env0 (some "2025-02-30 00:00:00") = "2025-03-02 00:00:00" ∧
    formatLocalDateTime env0 (some "0999-06-15 00:00:00") = "999-06-15 00:00:00" := by
  decide

/-- C3 as amended: a `YYYY-MM-DD HH:MM:SS` string whose six fields form a
real calendar date-time (month 1–12, day within the month, hour ≤ 23,
minute/second ≤ 59) with year 1000–9999 is parsed as UTC calendar fields
and, under a UTC+0 local zone, renders back to exactly the input string. -/
theorem c3_sql_roundtrip (env : JSEnv) (y mo d h mi sec : Nat)
    (hy1 : 1000 ≤ y) (hy2 : y ≤ 9999) (hm1 : 1 ≤ mo) (hm2 : mo ≤ 12)
    (hd1 : 1 ≤ d) (hd2 : d ≤ monthLen y mo) (hh : h < 24) (hmi : mi < 60) (hsec : sec < 60)
    (htz : env.tzOffsetMin = 0) :
    formatLocalDateTime env (some (sqlString y mo d h mi sec)) = sqlString y mo d h mi sec := by
  obtain ⟨hne1, hne2, hne3⟩ := sqlString_ne_sentinels y mo d h mi sec
  obtain ⟨hnT, hnZ⟩ := sqlString_no_TZ y mo d h mi sec
  have hml := monthLen_le31 y mo hm1 hm2
  simp only [formatLocalDateTime]
  rw [if_neg (by simp [hne1, hne2, hne3])]
  unfold dtParse
  rw [if_neg (by simp [hnT, hnZ]),
    if_pos (sqlTest_canonical y mo d h mi sec (by omega) (by omega) (by omega)
      (by omega) (by omega) (by omega)),
    sqlFind_canonical y mo d h mi sec (by omega) (by omega) (by omega)
      (by omega) (by omega) (by omega)]
  show renderDateTime env
    (dateUTC (y : Int) ((mo : Int) - 1) (d : Int) (h : Int) (mi : Int) (sec : Int)) = _
  unfold renderDateTime localCivil
  rw [htz]
  rw [show dateUTC (y : Int) ((mo : Int) - 1) (d : Int) (h : Int) (mi : Int) (sec : Int)
        + (0 : Int) * 60000
      = dateUTC (y : Int) ((mo : Int) - 1) (d : Int) (h : Int) (mi : Int) (sec : Int) by ring]
  rw [msToCivil_dateUTC y mo d h mi sec (by omega) hy2 hm1 hm2 hd1 hd2 hh hmi hsec]
  show toString ((y : Nat) : Int) ++ "-" ++ pad2 mo ++ "-" ++ pad2 d ++ " " ++
    pad2 h ++ ":" ++ pad2 mi ++ ":" ++ pad2 sec = _
  rw [toString_intCast, repr_four y hy1 (by omega), pad2_d2c mo (by omega),
    pad2_d2c d (by omega), pad2_d2c h (by omega), pad2_d2c mi (by omega),
    pad2_d2c sec (by omega)]
  unfold sqlString
  rw [show ("-" : String) = String.mk ['-'] from rfl,
    show (" " : String) = String.mk [' '] from rfl,
    show (":" : String) = String.mk [':'] from rfl]
  apply String.ext
  simp

/-- Witness for C3 (amended) at `"2025-12-22 06:36:15"` under UTC+0. -/
theorem c3_sql_roundtrip_witness :
    sqlString 2025 12 22 6 36 15 = "2025-12-22 06:36:15" ∧
    (22 : Nat) ≤ monthLen 2025 12 ∧ env0.tzOffsetMin = 0 ∧
    formatLocalDateTime env0 (some "2025-12-22 06:36:15") = "2025-12-22 06:36:15" := by
  have e : sqlString 2025 12 22 6 36 15 = "2025-12-22 06:36:15" := by decide
  refine ⟨e, by decide, rfl, ?_⟩
  have h := c3_sql_roundtrip env0 2025 12 22 6 36 15 (by norm_num) (by norm_num)
    (by norm_num) (by norm_num) (by norm_num) (by decide) (by norm_num) (by norm_num)
    (by norm_num) rfl
  rw [e] at h
  exact h

/-- C7 counterexample: an instant whose local year has fewer than four
digits is rendered with an unpadded year, so the output is not of the
claimed `YYYY-MM-DD HH:MM:SS` shape (it has 18 characters, not 19). -/
theorem c7_year_unpadded_counterexample :
    dtParse env0 "0999-12-31 23:59:59" = some (dateUTC 999 11 31 23 59 59) ∧
    formatLocalDateTime env0 (some "0999-12-31 23:59:59") = "999-12-31 23:59:59" ∧
    ("999-12-31 23:59:59" : String).length = 18 := by
  decide

/-- C7 as amended: for every input that `formatLocalDateTime` parses to a
valid instant, the output is the local year rendered *unpadded* (its plain
decimal representation), followed by month, day, hour, minute and second,
each zero-padded to exactly two digits, with the fields read from the
local zone and lying in their calendar ranges. -/
theorem c7_render_shape (env : JSEnv) (s : String) (ms : Int)
    (hg1 : s ≠ "") (hg2 : s ≠ "Unknown") (hg3 : s ≠ "Never")
    (hp : dtParse env s = some ms) :
    formatLocalDateTime env (some s) =
      toString (localCivil env ms).year ++ "-" ++ pad2 (localCivil env ms).month ++ "-" ++
        pad2 (localCivil env ms).day ++ " " ++ pad2 (localCivil env ms).hour ++ ":" ++
        pad2 (localCivil env ms).minute ++ ":" ++ pad2 (localCivil env ms).second ∧
    1 ≤ (localCivil env ms).month ∧ (localCivil env ms).month ≤ 12 ∧
    1 ≤ (localCivil env ms).day ∧ (localCivil env ms).day ≤ 31 ∧
    (localCivil env ms).hour < 24 ∧ (localCivil env ms).minute < 60 ∧
    (localCivil env ms).second < 60 ∧
    (pad2 (localCivil env ms).month).length = 2 ∧
    (pad2 (localCivil env ms).day).length = 2 ∧
    (pad2 (localCivil env ms).hour).length = 2 ∧
    (pad2 (localCivil env ms).minute).length = 2 ∧
    (pad2 (localCivil env ms).second).length = 2 := by
  have hr := msToCivil_ranges (ms + env.tzOffsetMin * 60000)
  constructor
  · simp only [formatLocalDateTime]
    rw [if_neg (by simp [hg1, hg2, hg3]), hp]
    rfl
  · unfold localCivil
    obtain ⟨a1, a2, a3, a4, a5, a6, a7⟩ := hr
    exact ⟨a1, a2, a3, a4, a5, a6, a7, pad2_len _ (by omega), pad2_len _ (by omega),
      pad2_len _ (by omega), pad2_len _ (by omega), pad2_len _ (by omega)⟩

/-- Witness for C7 (amended) at `"2025-12-22 06:36:15"` under `env0`. -/
theorem c7_render_shape_witness :
    dtParse env0 "2025-12-22 06:36:15" = some (dateUTC 2025 11 22 6 36 15) ∧
    (pad2 (localCivil env0 (dateUTC 2025 11 22 6 36 15)).month).length = 2 :=
  ⟨by decide,
   (c7_render_shape env0 "2025-12-22 06:36:15" (dateUTC 2025 11 22 6 36 15)
     (by decide) (by decide) (by decide) (by decide)).2.2.2.2.2.2.2.2.1⟩

/-- Witness for C1 at an instant 10 s in the past. -/
theorem c1_relative_time_bands_witness :
    env0.parseAny "x" = some (-10000) ∧ ((-10000 : Int) ≤ env0.nowMs) ∧
    formatLastActivity env0 "x" = relTimeSpec env0 (-10000) ∧
    relTimeSpec env0 (-10000) = "10 seconds ago" :=
  ⟨rfl, by decide,
   c1_relative_time_bands env0 "x" (-10000) (by decide) (by decide) (by decide)
     rfl (by decide),
   by decide⟩
